import Mathlib

/-!
Shallow embedding of the log-structured key-value store
(`src/engines/kvs.rs`, `src/logs.rs`, `src/server.rs`, `src/error.rs`,
`src/codec.rs`).

Modelling conventions:

* Machine integers (`u64`) are `Nat`; none of the verified paths can
  overflow 2^64 (positions and sizes are bounded by file contents).
* A segment file's content is a `List LogUnit`: a sequence of
  well-formed records (`LogUnit.record`) possibly followed by undecodable
  bytes (`LogUnit.junk n`, `n` bytes that the JSON stream decoder
  rejects).  `serde_json::to_vec` is modelled by its exact byte length
  `encLen` (serde_json escapes only `"`, `\` and control characters).
* The store directory is an association list from file name to content;
  all entries are regular files (the engine itself only ever creates
  regular `.log` files).
* Fallible OS calls (`create_dir_all`, `read_dir`, `File::open`,
  `File::create`, `write`, `flush`, seek-and-read, `remove_file`) each
  consume one entry of an I/O fault schedule `ioSched : List Bool`
  carried in the state; `true` means that call fails with an I/O error,
  an exhausted schedule means no further faults.  `[]` is the fault-free
  environment.
* Rust panics (`.expect(..)` on a missing reader) are modelled by the
  distinguished outcome `KvError.panicked`; a panic aborts the process,
  so it is never an `Ok`/`Err` value in Rust, and the model keeps it
  disjoint from the genuine error constructors.
* `&mut self` methods return `Except KvError α × KvStore`: the store
  survives a failed call exactly as in Rust, including the partial
  mutations a failed compaction leaves behind.
-/

/-- On-disk command record (`Command` in `src/logs.rs`). -/
inductive Command where
  | set (key value : String)
  | remove (key : String)
deriving DecidableEq, Repr

/-- Byte length contributed by one character inside a JSON string
literal as serde_json prints it: `"` and `\` are escaped to two bytes,
control characters below 0x20 get either a two-byte short escape
(`\b \t \n \f \r`) or a six-byte `\u00XX` escape, and every other
character occupies its UTF-8 byte length. -/
def charEscLen (c : Char) : Nat :=
  if c = '"' ∨ c = '\\' then 2
  else if c.val < 32 then
    if c.val = 8 ∨ c.val = 9 ∨ c.val = 10 ∨ c.val = 12 ∨ c.val = 13 then 2 else 6
  else c.utf8Size

/-- Byte length of a string as a JSON string literal body (no quotes). -/
def escLen (s : String) : Nat := (s.data.map charEscLen).sum

/-- Exact byte length of `serde_json::to_vec(&cmd)`:
`{"Set":{"key":"…","value":"…"}}` and `{"Remove":{"key":"…"}}`. -/
def encLen : Command → Nat
  | .set k v => 29 + escLen k + escLen v
  | .remove k => 21 + escLen k

/-- Model of `LogPointer` in `src/logs.rs`: generation, byte offset, byte length. -/
structure LogPointer where
  log_gen : Nat
  pos : Nat
  len : Nat
deriving DecidableEq, Repr

/-- One maximal unit of a segment file: a well-formed record, or a block
of bytes the sequential decoder cannot parse. -/
inductive LogUnit where
  | record (c : Command)
  | junk (n : Nat)
deriving DecidableEq, Repr

/-- Byte length of a log unit. -/
def unitLen : LogUnit → Nat
  | .record c => encLen c
  | .junk n => n

/-- The store directory: file name to file content. -/
abbrev FileSys := List (String × List LogUnit)

/-- Look up a file by name (`File::open` succeeds iff this is `some`). -/
def fsLookup (files : FileSys) (name : String) : Option (List LogUnit) :=
  match files.find? (fun e => e.1 = name) with
  | some e => some e.2
  | none => none

/-- Model of `File::create`: truncate an existing file or create a fresh one. -/
def fsSet : FileSys → String → List LogUnit → FileSys
  | [], name, c => [(name, c)]
  | (n, c') :: rest, name, c =>
    if n = name then (name, c) :: rest else (n, c') :: fsSet rest name c

/-- Append flushed bytes to a file (the writer's file always exists in
reachable states; appending to an absent name creates it). -/
def fsAppend : FileSys → String → List LogUnit → FileSys
  | [], name, u => [(name, u)]
  | (n, c) :: rest, name, u =>
    if n = name then (n, c ++ u) :: rest else (n, c) :: fsAppend rest name u

/-- Model of `fs::remove_file`: drop the named file. -/
def fsErase : FileSys → String → FileSys
  | [], _ => []
  | (n, c) :: rest, name =>
    if n = name then rest else (n, c) :: fsErase rest name

/-- The keydir (`HashMap<String, LogPointer>`) as an association list. -/
abbrev Keydir := List (String × LogPointer)

/-- Model of `HashMap::get`. -/
def kdGet (kd : Keydir) (k : String) : Option LogPointer :=
  match kd.find? (fun e => e.1 = k) with
  | some e => some e.2
  | none => none

/-- Model of `HashMap::insert` (overwrite in place, else append). -/
def kdInsert : Keydir → String → LogPointer → Keydir
  | [], k, p => [(k, p)]
  | (k', p') :: rest, k, p =>
    if k' = k then (k, p) :: rest else (k', p') :: kdInsert rest k p

/-- Model of `HashMap::remove`. -/
def kdRemove : Keydir → String → Keydir
  | [], _ => []
  | (k', p') :: rest, k =>
    if k' = k then rest else (k', p') :: kdRemove rest k

/-- Model of `readers.insert gen` on the readers map, keyed by generation. -/
def readersInsert (rs : List Nat) (gen : Nat) : List Nat :=
  if gen ∈ rs then rs else rs ++ [gen]

/-- Model of `KvStoreError` in `src/error.rs`, plus the distinguished `panicked`
outcome for Rust panics (`.expect` on a missing reader). -/
inductive KvError where
  | ioErr
  | serdeErr
  | unknownKey
  | unexpectedCommandType
  | panicked
deriving DecidableEq, Repr

/-- Pop one entry of an I/O fault schedule; `true` = this call fails. -/
def schedPop : List Bool → Bool × List Bool
  | [] => (false, [])
  | b :: rest => (b, rest)

/-- The file name `<gen>.log` (`log_path` in `src/logs.rs`; the directory component is
a fixed ambient store directory and is dropped). -/
def log_path (gen : Nat) : String := Nat.repr gen ++ ".log"

/-- Split a character list at its last `'.'`: `some (before, after)`,
`none` when no dot occurs. -/
def lastDotSplit : List Char → Option (List Char × List Char)
  | [] => none
  | c :: cs =>
    match lastDotSplit cs with
    | some (b, a) => some (c :: b, a)
    | none => if c = '.' then some ([], cs) else none

/-- Rust `Path::extension` on a bare file name: the part after the last
dot, except that a leading dot (hidden-file convention) does not start
an extension. -/
def extension (name : String) : Option String :=
  match lastDotSplit name.data with
  | some (b, a) => if b = [] then none else some (String.mk a)
  | none => none

/-- Rust `Path::file_stem` on a bare file name: everything before the
last dot, or the whole name when there is no extension. -/
def file_stem (name : String) : String :=
  match lastDotSplit name.data with
  | some (b, _) => if b = [] then name else String.mk b
  | none => name

/-- Strip every trailing `".log"` from a reversed character list
(`".log"` reversed is `'g' 'o' 'l' '.'`). -/
def dropLogSuffixesRev : List Char → List Char
  | 'g' :: 'o' :: 'l' :: '.' :: rest => dropLogSuffixesRev rest
  | other => other

/-- Rust `str::trim_end_matches(".log")`: repeatedly remove a trailing
`".log"`. -/
def dropLogSuffixes (name : String) : List Char :=
  (dropLogSuffixesRev name.data.reverse).reverse

/-- Rust `str::parse::<u64>`: an optional leading `'+'`, then one or
more ASCII digits, rejecting values that overflow `u64`. -/
def parseU64 (s : List Char) : Option Nat :=
  let digits := match s with
    | '+' :: rest => rest
    | other => other
  if digits = [] then none
  else if digits.all Char.isDigit then
    let n := digits.foldl (fun acc c => acc * 10 + (c.toNat - 48)) 0
    if n < 2 ^ 64 then some n else none
  else none

/-- Model of `sorted_log_gens` in `src/engines/kvs.rs`: keep regular files whose
extension is `.log`, strip every trailing `".log"` from the file name,
parse the remainder as `u64`, drop parse failures, sort ascending.
(Every directory entry of the model is a regular file, so the
`path.is_file()` conjunct is identically true here; unreadable directory
entries are silently skipped by the source's `flat_map` over `Result`
and are not modelled.) -/
def sorted_log_gens (files : FileSys) : List Nat :=
  (files.filterMap (fun e =>
    if extension e.1 = some "log" then parseU64 (dropLogSuffixes e.1)
    else none)).insertionSort (· ≤ ·)

/-- Modelled from the spec's words (§4.1), for comparison with
`sorted_log_gens`: keep regular files whose extension is `.log` and
whose *stem* parses as an unsigned integer, sort ascending. -/
def sorted_log_gens_spec (files : FileSys) : List Nat :=
  (files.filterMap (fun e =>
    if extension e.1 = some "log" then parseU64 (file_stem e.1).data
    else none)).insertionSort (· ≤ ·)

/-- The `COMPACTION_THRESHOLD` constant in `src/engines/kvs.rs`. -/
def COMPACTION_THRESHOLD : Nat := 1024 * 1024

/-- Engine state (`KvStore` plus its `LogWriter`'s own fields and the
I/O fault schedule).  `log_gen` is the `KvStore::log_gen` field;
`writer_gen`/`writer_pos` are the active `LogWriter`'s generation and
byte position (equal to `log_gen` except transiently on a failed
compaction). -/
structure KvStore where
  files : FileSys
  keydir : Keydir
  readers : List Nat
  log_gen : Nat
  writer_gen : Nat
  writer_pos : Nat
  stale_logs_size : Nat
  ioSched : List Bool
deriving DecidableEq, Repr

/-- Random-access decode (`LogReader::read_pointer`'s
`seek + take(len) + serde_json::from_reader`): the read succeeds exactly
when `(pos, len)` is the extent of one well-formed record; a misaligned
offset, a truncating or overlong length, junk bytes, or an offset past
EOF all fail the parse. -/
def recAt : List LogUnit → Nat → Nat → Option Command
  | [], _, _ => none
  | u :: rest, pos, len =>
    if pos = 0 then
      match u with
      | .record c => if len = encLen c then some c else none
      | .junk _ => none
    else if unitLen u ≤ pos then recAt rest (pos - unitLen u) len else none

/-- The `while let Some(Ok((cmd, log_pointer))) = commands.next()` replay
loop of `index_logs`, over one segment: fold the decodable prefix into
the keydir and the stale counter, stopping silently at the first unit
the stream decoder rejects. -/
def replayUnits (gen : Nat) : List LogUnit → Nat → Keydir → Nat → Keydir × Nat
  | [], _, kd, stale => (kd, stale)
  | .junk _ :: _, _, kd, stale => (kd, stale)
  | .record c :: rest, pos, kd, stale =>
    match c with
    | .set key value =>
      let len := encLen (.set key value)
      let stale' := match kdGet kd key with
        | some p => stale + p.len
        | none => stale
      replayUnits gen rest (pos + len) (kdInsert kd key ⟨gen, pos, len⟩) stale'
    | .remove key =>
      let len := encLen (.remove key)
      let stale' := match kdGet kd key with
        | some p => stale + p.len
        | none => stale
      replayUnits gen rest (pos + len) (kdRemove kd key) stale'

/-- Holds the `true` flag iff the next fallible OS call of this state fails. -/
def ioFail (s : KvStore) : Bool := (schedPop s.ioSched).1

/-- Consume one I/O fault-schedule entry. -/
def ioNext (s : KvStore) : KvStore :=
  { s with ioSched := (schedPop s.ioSched).2 }

/-- The `for &log_gen in &log_gens` loop of `index_logs`: open a reader
per generation (one fallible `File::open` each), replay the segment,
register the reader.  Returns the readers map, the keydir, the stale
counter and the remaining fault schedule. -/
def indexLoop (files : FileSys) :
    List Nat → List Nat → Keydir → Nat → List Bool →
    Except KvError (List Nat × Keydir × Nat × List Bool)
  | [], readers, kd, stale, sched => .ok (readers, kd, stale, sched)
  | gen :: rest, readers, kd, stale, sched =>
    if (schedPop sched).1 then .error .ioErr
    else
      match fsLookup files (log_path gen) with
      | none => .error .ioErr
      | some content =>
        let (kd', stale') := replayUnits gen content 0 kd stale
        indexLoop files rest (readersInsert readers gen) kd' stale' (schedPop sched).2

/-- Model of `index_logs` in `src/engines/kvs.rs`: enumerate generations (one
fallible `read_dir`), replay every segment in ascending order, and
return `(readers, keydir, current_log_gen, stale_logs_size)` with
`current_log_gen = last + 1` (or `1` when no segment exists). -/
def index_logs (files : FileSys) (sched : List Bool) :
    Except KvError (List Nat × Keydir × Nat × Nat × List Bool) :=
  if (schedPop sched).1 then .error .ioErr
  else
    let log_gens := sorted_log_gens files
    match indexLoop files log_gens [] [] 0 (schedPop sched).2 with
    | .error e => .error e
    | .ok (readers, kd, stale, sched') =>
      let current_log_gen := log_gens.getLast?.getD 0 + 1
      .ok (readers, kd, current_log_gen, stale, sched')

/-- Model of `KvStore::open`: ensure the directory (one fallible
`create_dir_all`), index the logs, open the writer on
`<current_log_gen>.log` (fallible `File::create`, truncating) and a
reader on the same file (fallible `File::open`), register that reader. -/
def openStore (files : FileSys) (sched : List Bool) : Except KvError KvStore :=
  if (schedPop sched).1 then .error .ioErr
  else
    match index_logs files (schedPop sched).2 with
    | .error e => .error e
    | .ok (readers, kd, current_log_gen, stale, sched2) =>
      if (schedPop sched2).1 then .error .ioErr
      else
        let files' := fsSet files (log_path current_log_gen) []
        if (schedPop (schedPop sched2).2).1 then .error .ioErr
        else
          .ok { files := files'
                keydir := kd
                readers := readersInsert readers current_log_gen
                log_gen := current_log_gen
                writer_gen := current_log_gen
                writer_pos := 0
                stale_logs_size := stale
                ioSched := (schedPop (schedPop sched2).2).2 }

/-- Model of `LogReader::read_pointer`: one fallible seek-and-read, then look up
the reader's segment file and decode the record at `(pos, len)`; a `Set`
yields its value, a `Remove` is `UnexpectedCommandType`, an undecodable
extent is a serde error.  Only the fault schedule of the state changes. -/
def read_pointer (s : KvStore) (p : LogPointer) :
    Except KvError (Option String) × KvStore :=
  if ioFail s then (.error .ioErr, ioNext s)
  else
    match fsLookup s.files (log_path p.log_gen) with
    | none => (.error .ioErr, ioNext s)
    | some content =>
      match recAt content p.pos p.len with
      | some (.set _ value) => (.ok (some value), ioNext s)
      | some (.remove _) => (.error .unexpectedCommandType, ioNext s)
      | none => (.error .serdeErr, ioNext s)

/-- Model of `LogWriter::write_set_cmd`: fallible buffered `write` then fallible
`flush`; on success the flushed record lands in the writer's file, the
position advances, and the new pointer is returned.  A failed flush
leaves position and visible file content unchanged (the buffered bytes
never became readable). -/
def write_set_cmd (s : KvStore) (key value : String) :
    Except KvError LogPointer × KvStore :=
  if ioFail s then (.error .ioErr, ioNext s)
  else if ioFail (ioNext s) then (.error .ioErr, ioNext (ioNext s))
  else
    let cmd := Command.set key value
    let len := encLen cmd
    let s2 := ioNext (ioNext s)
    (.ok ⟨s2.writer_gen, s2.writer_pos, len⟩,
      { s2 with
        files := fsAppend s2.files (log_path s2.writer_gen) [.record cmd]
        writer_pos := s2.writer_pos + len })

/-- Model of `LogWriter::write_rm_cmd`: as `write_set_cmd` but for a `Remove`
record, returning no pointer. -/
def write_rm_cmd (s : KvStore) (key : String) :
    Except KvError Unit × KvStore :=
  if ioFail s then (.error .ioErr, ioNext s)
  else if ioFail (ioNext s) then (.error .ioErr, ioNext (ioNext s))
  else
    let cmd := Command.remove key
    let len := encLen cmd
    let s2 := ioNext (ioNext s)
    (.ok (),
      { s2 with
        files := fsAppend s2.files (log_path s2.writer_gen) [.record cmd]
        writer_pos := s2.writer_pos + len })

/-- The `for (key, log_pointer) in self.keydir.iter()` loop of
`KvStore::compact`: look up the reader for the pointer's generation
(`.expect` panics when it is missing), read the value, and append a
fresh `Set` record to the compaction file (one fallible buffered write
per record), building `new_keydir` and the running offset `pos`. -/
def compactLoop (cgen : Nat) :
    List (String × LogPointer) → Nat → Keydir → KvStore →
    Except KvError Unit × Nat × Keydir × KvStore
  | [], pos, nkd, s => (.ok (), pos, nkd, s)
  | (key, p) :: rest, pos, nkd, s =>
    if p.log_gen ∈ s.readers then
      match read_pointer s p with
      | (.error e, s') => (.error e, pos, nkd, s')
      | (.ok none, s') => compactLoop cgen rest pos nkd s'
      | (.ok (some value), s') =>
        if ioFail s' then (.error .ioErr, pos, nkd, ioNext s')
        else
          let cmd := Command.set key value
          let len := encLen cmd
          compactLoop cgen rest (pos + len)
            (kdInsert nkd key ⟨cgen, pos, len⟩)
            { ioNext s' with
              files := fsAppend (ioNext s').files (log_path cgen) [.record cmd] }
    else (.error .panicked, pos, nkd, s)

/-- The `for old_log_gen in old_log_gens` deletion loop of
`KvStore::compact`: one fallible `remove_file` per old generation
(removing a missing file is itself an I/O error). -/
def deleteLoop : KvStore → List Nat → Except KvError Unit × KvStore
  | s, [] => (.ok (), s)
  | s, gen :: rest =>
    if ioFail s then (.error .ioErr, ioNext s)
    else
      match fsLookup s.files (log_path gen) with
      | none => (.error .ioErr, ioNext s)
      | some _ =>
        deleteLoop { ioNext s with files := fsErase (ioNext s).files (log_path gen) } rest

/-- Lines 131–153 of `KvStore::compact`, after the rewrite loop: flush
the compaction file (fallible), clear the readers map, open a reader on
the compaction file (fallible `File::open`) and register it, open the
writer on `<compact_log_gen+1>.log` (fallible `File::create`), delete
the snapshotted old-generation files, then install `new_keydir`, the
new generation and a zero stale counter.  Each error return leaves
exactly the mutations made so far, as the Rust `?` operator does. -/
def compactInstall (s : KvStore) (compact_log_gen : Nat) (nkd : Keydir)
    (old_log_gens : List Nat) : Except KvError Unit × KvStore :=
  if ioFail s then (.error .ioErr, ioNext s)
  else
    let s5 := { ioNext s with readers := ([] : List Nat) }
    if ioFail s5 then (.error .ioErr, ioNext s5)
    else
      let s7 := { ioNext s5 with
        readers := readersInsert (ioNext s5).readers compact_log_gen }
      if ioFail s7 then (.error .ioErr, ioNext s7)
      else
        let s9 := { ioNext s7 with
          files := fsSet (ioNext s7).files (log_path (compact_log_gen + 1)) []
          writer_gen := compact_log_gen + 1
          writer_pos := 0 }
        match deleteLoop s9 old_log_gens with
        | (.error e, s10) => (.error e, s10)
        | (.ok _, s10) =>
          (.ok (), { s10 with
            keydir := nkd
            log_gen := compact_log_gen + 1
            stale_logs_size := 0 })

/-- Model of `KvStore::compact`, mutation for mutation: snapshot the reader
generations, create `<log_gen+1>.log` (fallible), rewrite every live
key into it, then hand over to `compactInstall` for the swap-and-delete
tail of the method. -/
def compact (s : KvStore) : Except KvError Unit × KvStore :=
  let old_log_gens := s.readers
  let compact_log_gen := s.log_gen + 1
  if ioFail s then (.error .ioErr, ioNext s)
  else
    let s2 := { ioNext s with
      files := fsSet (ioNext s).files (log_path compact_log_gen) [] }
    match compactLoop compact_log_gen s2.keydir 0 [] s2 with
    | (.error e, _, _, s3) => (.error e, s3)
    | (.ok _, _, nkd, s3) => compactInstall s3 compact_log_gen nkd old_log_gens

/-- Model of `KvStore::maybe_compact`: compact when the stale counter strictly
exceeds the threshold. -/
def maybe_compact (s : KvStore) : Except KvError Unit × KvStore :=
  if COMPACTION_THRESHOLD < s.stale_logs_size then compact s else (.ok (), s)

/-- Model of `KvStore::set`: append the `Set` record, add the superseded
pointer's length to the stale counter if the key was present, install
the new pointer, then run the compaction check. -/
def KvStore.set (s : KvStore) (key value : String) :
    Except KvError Unit × KvStore :=
  match write_set_cmd s key value with
  | (.error e, s') => (.error e, s')
  | (.ok p, s') =>
    let stale := match kdGet s'.keydir key with
      | some old => s'.stale_logs_size + old.len
      | none => s'.stale_logs_size
    maybe_compact
      { s' with keydir := kdInsert s'.keydir key p, stale_logs_size := stale }

/-- Model of `KvStore::remove`: fail with `UnknownKeyError` when the key is
absent, before touching the log; otherwise append the `Remove` record,
add the prior pointer's length to the stale counter, delete the key,
then run the compaction check. -/
def KvStore.remove (s : KvStore) (key : String) :
    Except KvError Unit × KvStore :=
  if (kdGet s.keydir key).isNone then (.error .unknownKey, s)
  else
    match write_rm_cmd s key with
    | (.error e, s') => (.error e, s')
    | (.ok _, s') =>
      let stale := match kdGet s'.keydir key with
        | some old => s'.stale_logs_size + old.len
        | none => s'.stale_logs_size
      maybe_compact
        { s' with keydir := kdRemove s'.keydir key, stale_logs_size := stale }

/-- Model of `KvStore::get`: look the key up in the keydir; when absent, answer
`Ok(None)` with no I/O at all; when present, fetch the reader for the
pointer's generation (`.expect("Expected log reader")` panics when it
is missing) and perform the random read. -/
def KvStore.get (s : KvStore) (key : String) :
    Except KvError (Option String) × KvStore :=
  match kdGet s.keydir key with
  | some p =>
    if p.log_gen ∈ s.readers then read_pointer s p
    else (.error .panicked, s)
  | none => (.ok none, s)

deriving instance DecidableEq for Except

/-- Wire request (`Message` in `src/codec.rs`). -/
inductive Message where
  | set (key value : String)
  | get (key : String)
  | remove (key : String)
deriving DecidableEq, Repr

/-- Wire response (`Response` in `src/codec.rs`); `Result<T, String>` is
`Except String T`. -/
inductive Response where
  | get (r : Except String (Option String))
  | set (r : Except String Unit)
  | remove (r : Except String Unit)
deriving DecidableEq

/-- The `Display` text of `KvStoreError` (`src/error.rs`).  The
`IoErr`/`SerdeErr` arms delegate to the wrapped error's own display, an
environment-dependent text abstracted here by a fixed placeholder; the
`panicked` arm is never applied by `handle_message`, which models the
unwinding panic as an abort instead of stringifying it. -/
def errToString : KvError → String
  | .ioErr => "io error"
  | .serdeErr => "serde error"
  | .unknownKey => "Key not found"
  | .unexpectedCommandType => "Unexpected command"
  | .panicked => "panicked"

/-- Model of `KvsServer::handle_message`: dispatch one request to the engine and
wrap the result in the matching response arm, stringifying errors with
`map_err(|err| err.to_string())`.  A `KvError.panicked` outcome is not an
`Err` value that `map_err` could see: the `.expect` panic unwinds out of
the engine call and, with no `catch_unwind` anywhere in the server, the
process aborts — modelled as `none`: no response exists for that
request. -/
def handle_message (s : KvStore) (m : Message) : Option (Response × KvStore) :=
  match m with
  | .set key value =>
    match KvStore.set s key value with
    | (.ok _, s') => some (.set (.ok ()), s')
    | (.error .panicked, _) => none
    | (.error e, s') => some (.set (.error (errToString e)), s')
  | .get key =>
    match KvStore.get s key with
    | (.ok v, s') => some (.get (.ok v), s')
    | (.error .panicked, _) => none
    | (.error e, s') => some (.get (.error (errToString e)), s')
  | .remove key =>
    match KvStore.remove s key with
    | (.ok _, s') => some (.remove (.ok ()), s')
    | (.error .panicked, _) => none
    | (.error e, s') => some (.remove (.error (errToString e)), s')

/-- The per-connection loop of `KvsServer::handle_client`, over the
finite sequence of well-formed requests decoded from one connection:
one response per request, produced in order (socket writes are taken to
succeed; a wire decode failure would only truncate the request list
itself).  A dispatch that panics destroys the loop: no response is
written for that request or for any later one, and the terminal state
is `none` — the unwinding panic aborts the process. -/
def handle_client (s : KvStore) : List Message → List Response × Option KvStore
  | [] => ([], some s)
  | m :: ms =>
    match handle_message s m with
    | none => ([], none)
    | some (r, s') =>
      match handle_client s' ms with
      | (rs, st) => (r :: rs, st)

/-- Holds iff a file name ends in `".log"` (what P7 counts). -/
def hasLogExt (name : String) : Bool :=
  match name.data.reverse with
  | 'g' :: 'o' :: 'l' :: '.' :: _ => true
  | _ => false

/-- Number of `.log` files in the store directory. -/
def logFileCount (files : FileSys) : Nat :=
  (files.filter (fun e => hasLogExt e.1)).length

/-- A one-mebibyte value: two overwrites of it push the stale counter
past `COMPACTION_THRESHOLD`. -/
def bigV : String := String.mk (List.replicate 1048576 'x')

theorem escLen_replicate (n : Nat) (c : Char) :
    escLen (String.mk (List.replicate n c)) = n * charEscLen c := by
  simp [escLen, List.map_replicate, List.sum_replicate, smul_eq_mul]

theorem escLen_bigV : escLen bigV = 1048576 := by
  rw [bigV, escLen_replicate, show charEscLen 'x' = 1 from by decide]

theorem encLen_set_a (v : String) :
    encLen (Command.set "a" v) = 30 + escLen v := by
  show 29 + escLen "a" + escLen v = 30 + escLen v
  rw [show escLen "a" = 1 from by decide]

/-- State after `open` on an empty directory. -/
def traceS0 : KvStore :=
  { files := [("1.log", [])]
    keydir := []
    readers := [1]
    log_gen := 1
    writer_gen := 1
    writer_pos := 0
    stale_logs_size := 0
    ioSched := [] }

/-- State after `set("a", v)` on `traceS0`. -/
def traceS1 (v : String) : KvStore :=
  { files := [("1.log", [.record (.set "a" v)])]
    keydir := [("a", ⟨1, 0, encLen (.set "a" v)⟩)]
    readers := [1]
    log_gen := 1
    writer_gen := 1
    writer_pos := encLen (.set "a" v)
    stale_logs_size := 0
    ioSched := [] }

/-- State after a second `set("a", v)` on `traceS1 v`, which triggers
the first compaction (for a large `v`): generation 2 holds the rewrite
of the one live key, generation 3 is the fresh active writer segment,
and the readers map holds only generation 2. -/
def traceS2 (v : String) : KvStore :=
  { files := [("2.log", [.record (.set "a" v)]), ("3.log", [])]
    keydir := [("a", ⟨2, 0, encLen (.set "a" v)⟩)]
    readers := [2]
    log_gen := 3
    writer_gen := 3
    writer_pos := 0
    stale_logs_size := 0
    ioSched := [] }

/-- State after `set("b", "w")` on `traceS2 v`: the new pointer lives in
generation 3, for which no reader is registered. -/
def traceS3 (v : String) : KvStore :=
  { files := [("2.log", [.record (.set "a" v)]),
              ("3.log", [.record (.set "b" "w")])]
    keydir := [("a", ⟨2, 0, encLen (.set "a" v)⟩), ("b", ⟨3, 0, 31⟩)]
    readers := [2]
    log_gen := 3
    writer_gen := 3
    writer_pos := 31
    stale_logs_size := 0
    ioSched := [] }

/-- State after `remove("a")` on `traceS2 v`, which triggers the second
compaction (for a large `v`): the previous active segment `3.log` is
never deleted, because no reader was ever registered for it, so three
`.log` files remain. -/
def traceS4 : KvStore :=
  { files := [("3.log", [.record (.remove "a")]), ("4.log", []), ("5.log", [])]
    keydir := []
    readers := [4]
    log_gen := 5
    writer_gen := 5
    writer_pos := 0
    stale_logs_size := 0
    ioSched := [] }

theorem trace_open : openStore [] [] = .ok traceS0 := by decide

theorem trace_set1 (v : String) :
    KvStore.set traceS0 "a" v = (.ok (), traceS1 v) := by
  simp +decide [KvStore.set, write_set_cmd, ioFail, ioNext, schedPop, traceS0,
    traceS1, fsAppend, kdGet, kdInsert, maybe_compact, COMPACTION_THRESHOLD,
    List.find?]

theorem trace_set2 (v : String) (h : 1048576 ≤ escLen v) :
    KvStore.set (traceS1 v) "a" v = (.ok (), traceS2 v) := by
  have hL : encLen (Command.set "a" v) = 30 + escLen v := encLen_set_a v
  have hne : ¬(encLen (Command.set "a" v) = 0) := by omega
  simp +decide [KvStore.set, write_set_cmd, ioFail, ioNext, schedPop, traceS1,
    traceS2, fsAppend, kdGet, kdInsert, kdRemove, maybe_compact,
    COMPACTION_THRESHOLD, List.find?, compact, compactInstall, compactLoop,
    read_pointer, fsLookup, fsSet, recAt, unitLen, hne, readersInsert,
    deleteLoop, fsErase, hL,
    show log_path 2 = "2.log" from by decide, show log_path 3 = "3.log" from by decide,
    show (1048576 < 30 + escLen v) = True from eq_true (by omega)]

theorem trace_set3 (v : String) :
    KvStore.set (traceS2 v) "b" "w" = (.ok (), traceS3 v) := by
  simp +decide [KvStore.set, write_set_cmd, ioFail, ioNext, schedPop, traceS2,
    traceS3, fsAppend, kdGet, kdInsert, maybe_compact, COMPACTION_THRESHOLD,
    List.find?, show encLen (Command.set "b" "w") = 31 from by decide]

theorem trace_get3 (v : String) :
    KvStore.get (traceS3 v) "b" = (.error .panicked, traceS3 v) := by
  simp +decide [KvStore.get, traceS3, kdGet, List.find?]

theorem trace_remove (v : String) (h : 1048576 ≤ escLen v) :
    KvStore.remove (traceS2 v) "a" = (.ok (), traceS4) := by
  have hL : encLen (Command.set "a" v) = 30 + escLen v := encLen_set_a v
  simp +decide [KvStore.remove, write_rm_cmd, ioFail, ioNext, schedPop, traceS2,
    traceS4, fsAppend, kdGet, kdInsert, kdRemove, maybe_compact,
    COMPACTION_THRESHOLD, List.find?, compact, compactInstall, compactLoop,
    read_pointer, fsLookup, fsSet, recAt, unitLen, readersInsert, deleteLoop,
    fsErase, hL,
    show encLen (Command.remove "a") = 22 from by decide,
    show log_path 4 = "4.log" from by decide, show log_path 5 = "5.log" from by decide,
    show log_path 2 = "2.log" from by decide,
    show (1048576 < 30 + escLen v) = True from eq_true (by omega)]

/-- State `traceS1` with a fault schedule that lets the `Set` append succeed
and fails the next I/O call, which is the compaction's `File::create`. -/
def traceS1c (v : String) : KvStore :=
  { traceS1 v with ioSched := [false, false, true] }

/-- The state `set("a", v)` on `traceS1c v` leaves behind when the
compaction check fails: the keydir already holds the new pointer. -/
def traceS1bad (v : String) : KvStore :=
  { files := [("1.log", [.record (.set "a" v), .record (.set "a" v)])]
    keydir := [("a", ⟨1, encLen (.set "a" v), encLen (.set "a" v)⟩)]
    readers := [1]
    log_gen := 1
    writer_gen := 1
    writer_pos := encLen (.set "a" v) + encLen (.set "a" v)
    stale_logs_size := encLen (.set "a" v)
    ioSched := [] }

theorem trace_set_ioFail (v : String) (h : 1048576 ≤ escLen v) :
    KvStore.set (traceS1c v) "a" v = (.error .ioErr, traceS1bad v) := by
  have hL : encLen (Command.set "a" v) = 30 + escLen v := encLen_set_a v
  simp +decide [KvStore.set, write_set_cmd, ioFail, ioNext, schedPop, traceS1c,
    traceS1, traceS1bad, fsAppend, kdGet, kdInsert, maybe_compact,
    COMPACTION_THRESHOLD, List.find?, compact, hL,
    show (1048576 < 30 + escLen v) = True from eq_true (by omega)]

theorem read_pointer_keydir (s : KvStore) (p : LogPointer) :
    ((read_pointer s p).2).keydir = s.keydir := by
  unfold read_pointer
  repeat' first | rfl | split

theorem read_pointer_stale (s : KvStore) (p : LogPointer) :
    ((read_pointer s p).2).stale_logs_size = s.stale_logs_size := by
  unfold read_pointer
  repeat' first | rfl | split

theorem read_pointer_ne_ok_none (s : KvStore) (p : LogPointer) :
    (read_pointer s p).1 ≠ .ok none := by
  unfold read_pointer
  repeat' first | simp | split

theorem write_set_cmd_keydir (s : KvStore) (k v : String) :
    ((write_set_cmd s k v).2).keydir = s.keydir := by
  unfold write_set_cmd
  repeat' first | rfl | split

theorem write_set_cmd_stale (s : KvStore) (k v : String) :
    ((write_set_cmd s k v).2).stale_logs_size = s.stale_logs_size := by
  unfold write_set_cmd
  repeat' first | rfl | split

theorem write_rm_cmd_keydir (s : KvStore) (k : String) :
    ((write_rm_cmd s k).2).keydir = s.keydir := by
  unfold write_rm_cmd
  repeat' first | rfl | split

theorem write_rm_cmd_stale (s : KvStore) (k : String) :
    ((write_rm_cmd s k).2).stale_logs_size = s.stale_logs_size := by
  unfold write_rm_cmd
  repeat' first | rfl | split

theorem compactLoop_keydir (cgen : Nat) (entries : List (String × LogPointer))
    (pos : Nat) (nkd : Keydir) (s : KvStore) :
    ((compactLoop cgen entries pos nkd s).2.2.2).keydir = s.keydir := by
  induction entries generalizing pos nkd s with
  | nil => rfl
  | cons e rest ih =>
    obtain ⟨key, p⟩ := e
    simp only [compactLoop]
    split
    · rcases hr : read_pointer s p with ⟨r, s'⟩
      have hk : s'.keydir = s.keydir := by
        have h0 := read_pointer_keydir s p
        rw [hr] at h0
        exact h0
      rcases r with e' | v
      · simpa using hk
      · rcases v with - | v
        · simp only []
          rw [ih]
          exact hk
        · simp only []
          split
          · simpa using hk
          · rw [ih]
            exact hk
    · rfl

theorem deleteLoop_keydir (gens : List Nat) (s : KvStore) :
    ((deleteLoop s gens).2).keydir = s.keydir := by
  induction gens generalizing s with
  | nil => rfl
  | cons gen rest ih =>
    simp only [deleteLoop]
    split
    · rfl
    · split
      · rfl
      · rw [ih]
        rfl

theorem compactInstall_error_keydir (s : KvStore) (c : Nat) (nkd : Keydir)
    (old : List Nat) (e : KvError) (s' : KvStore)
    (h : compactInstall s c nkd old = (.error e, s')) : s'.keydir = s.keydir := by
  simp only [compactInstall] at h
  split at h
  · injection h with hA hB
    subst hB
    rfl
  · split at h
    · injection h with hA hB
      subst hB
      rfl
    · split at h
      · injection h with hA hB
        subst hB
        rfl
      · split at h
        · rename_i heq
          injection h with hA hB
          subst hB
          have h0 := congrArg KvStore.keydir (congrArg Prod.snd heq)
          rw [deleteLoop_keydir] at h0
          rw [← h0]
          rfl
        · injection h with hA hB
          injection hA

theorem compactInstall_ok_stale (s : KvStore) (c : Nat) (nkd : Keydir)
    (old : List Nat) (u : Unit) (s' : KvStore)
    (h : compactInstall s c nkd old = (.ok u, s')) : s'.stale_logs_size = 0 := by
  simp only [compactInstall] at h
  split at h
  · injection h with hA hB
    injection hA
  · split at h
    · injection h with hA hB
      injection hA
    · split at h
      · injection h with hA hB
        injection hA
      · split at h
        · injection h with hA hB
          injection hA
        · injection h with hA hB
          subst hB
          rfl

theorem compact_error_keydir (s : KvStore) (e : KvError) (s' : KvStore)
    (h : compact s = (.error e, s')) : s'.keydir = s.keydir := by
  simp only [compact] at h
  split at h
  · injection h with hA hB
    subst hB
    rfl
  · split at h
    · rename_i heq
      injection h with hA hB
      subst hB
      have h0 := congrArg KvStore.keydir
        (congrArg Prod.snd (congrArg Prod.snd (congrArg Prod.snd heq)))
      rw [compactLoop_keydir] at h0
      rw [← h0]
      rfl
    · rename_i heq
      have h0 := congrArg KvStore.keydir
        (congrArg Prod.snd (congrArg Prod.snd (congrArg Prod.snd heq)))
      rw [compactLoop_keydir] at h0
      have h1 := compactInstall_error_keydir _ _ _ _ _ _ h
      rw [h1, ← h0]
      rfl

theorem compact_ok_stale (s : KvStore) (u : Unit) (s' : KvStore)
    (h : compact s = (.ok u, s')) : s'.stale_logs_size = 0 := by
  simp only [compact] at h
  split at h
  · injection h with hA hB
    injection hA
  · split at h
    · injection h with hA hB
      injection hA
    · exact compactInstall_ok_stale _ _ _ _ _ _ h

theorem maybe_compact_error_keydir (s : KvStore) (e : KvError) (s' : KvStore)
    (h : maybe_compact s = (.error e, s')) : s'.keydir = s.keydir := by
  simp only [maybe_compact] at h
  split at h
  · exact compact_error_keydir _ _ _ h
  · injection h with hA hB
    injection hA

theorem maybe_compact_ok_stale (s : KvStore) (u : Unit) (s' : KvStore)
    (h : maybe_compact s = (.ok u, s')) :
    (s.stale_logs_size ≤ COMPACTION_THRESHOLD ∧ s' = s) ∨
    (COMPACTION_THRESHOLD < s.stale_logs_size ∧ s'.stale_logs_size = 0) := by
  simp only [maybe_compact] at h
  split at h
  · right
    exact ⟨by assumption, compact_ok_stale _ _ _ h⟩
  · left
    injection h with hA hB
    exact ⟨by omega, hB.symm⟩

theorem escLen_bigV_ge : 1048576 ≤ escLen bigV := le_of_eq escLen_bigV.symm

theorem get_absent (s : KvStore) (k : String) (h : kdGet s.keydir k = none) :
    KvStore.get s k = (.ok none, s) := by
  simp [KvStore.get, h]

theorem remove_absent (s : KvStore) (k : String) (h : kdGet s.keydir k = none) :
    KvStore.remove s k = (.error .unknownKey, s) := by
  simp [KvStore.remove, h]

/-- C1: after a compaction, a fresh `set` succeeds but the following
`get` of the same key panics at `readers.get_mut(..).expect("Expected
log reader")`: compaction registers no reader for the new writer
generation and `set` never adds one, so the claimed
`set(k,v); get(k) = some(v)` fails in post-compaction states. -/
theorem C1_set_then_get_panics_after_compaction :
    openStore [] [] = .ok traceS0 ∧
    KvStore.set traceS0 "a" bigV = (.ok (), traceS1 bigV) ∧
    KvStore.set (traceS1 bigV) "a" bigV = (.ok (), traceS2 bigV) ∧
    KvStore.set (traceS2 bigV) "b" "w" = (.ok (), traceS3 bigV) ∧
    KvStore.get (traceS3 bigV) "b" = (.error .panicked, traceS3 bigV) :=
  ⟨trace_open, trace_set1 bigV, trace_set2 bigV escLen_bigV_ge,
   trace_set3 bigV, trace_get3 bigV⟩

/-- C2: a second compaction (reached here by removing the one live key
of `traceS2`, which pushes the stale counter over the threshold) leaves
three `.log` files: the old active segment `3.log` is never deleted
because no reader was ever registered for it, contradicting the claimed
at-most-two bound. -/
theorem C2_second_compaction_leaves_three_log_files :
    openStore [] [] = .ok traceS0 ∧
    KvStore.set traceS0 "a" bigV = (.ok (), traceS1 bigV) ∧
    KvStore.set (traceS1 bigV) "a" bigV = (.ok (), traceS2 bigV) ∧
    KvStore.remove (traceS2 bigV) "a" = (.ok (), traceS4) ∧
    logFileCount traceS4.files = 3 :=
  ⟨trace_open, trace_set1 bigV, trace_set2 bigV escLen_bigV_ge,
   trace_remove bigV escLen_bigV_ge, by decide⟩

/-- A directory whose single segment ends in three undecodable bytes. -/
def junkDir : FileSys := [("1.log", [.record (.set "a" "v"), .junk 3])]

/-- What `openStore junkDir []` actually produces. -/
def junkStore : KvStore :=
  { files := [("1.log", [.record (.set "a" "v"), .junk 3]), ("2.log", [])]
    keydir := [("a", ⟨1, 0, 31⟩)]
    readers := [1, 2]
    log_gen := 2
    writer_gen := 2
    writer_pos := 0
    stale_logs_size := 0
    ioSched := [] }

/-- C3 counterexample: opening a directory that contains a malformed
trailing record does not fail with a decode error; it succeeds, with
the keydir built from the parseable prefix (`while let Some(Ok(..))`
silently stops at the first decode failure). -/
theorem C3_counterexample_open_succeeds_on_junk :
    openStore junkDir [] = .ok junkStore ∧
    junkStore.keydir = [("a", ⟨1, 0, 31⟩)] := by
  constructor
  · decide
  · decide

theorem indexLoop_ok (files : FileSys) (gens : List Nat)
    (h : ∀ g ∈ gens, (fsLookup files (log_path g)).isSome) :
    ∀ readers kd stale, ∃ readers' kd' stale',
      indexLoop files gens readers kd stale [] = .ok (readers', kd', stale', []) := by
  induction gens with
  | nil => exact fun readers kd stale => ⟨readers, kd, stale, rfl⟩
  | cons g rest ih =>
    intro readers kd stale
    have hg := h g (by simp)
    rcases hf : fsLookup files (log_path g) with - | content
    · rw [hf] at hg
      cases hg
    · have ih' := ih (fun g' hg' => h g' (by simp [hg']))
      rcases hru : replayUnits g content 0 kd stale with ⟨kd1, stale1⟩
      rcases ih' (readersInsert readers g) kd1 stale1 with ⟨r', k', s', hrec⟩
      refine ⟨r', k', s', ?_⟩
      simp only [indexLoop, schedPop, hf, hru]
      exact hrec

/-- C3 amended: recovery never fails on a malformed or truncated
record.  For every directory in which every enumerated generation's
segment file exists, `open` under a fault-free environment succeeds;
a segment's replay simply stops at the first undecodable record. -/
theorem C3_amended_open_does_not_fail_on_malformed (files : FileSys)
    (h : ∀ g ∈ sorted_log_gens files, (fsLookup files (log_path g)).isSome) :
    ∃ st, openStore files [] = .ok st := by
  rcases indexLoop_ok files (sorted_log_gens files) h [] [] 0 with ⟨r', k', s', hrec⟩
  simp only [openStore, index_logs, schedPop, hrec]
  exact ⟨_, rfl⟩

/-- C3 witness: the amended statement applied to `junkDir`. -/
theorem C3_witness_junkDir :
    (∀ g ∈ sorted_log_gens junkDir, (fsLookup junkDir (log_path g)).isSome) ∧
    ∃ st, openStore junkDir [] = .ok st :=
  ⟨by decide, C3_amended_open_does_not_fail_on_malformed junkDir (by decide)⟩

/-- C4 counterexample: in a reachable state (one key set), a second
`set` whose append succeeds but whose compaction check then fails with
an I/O error returns that error while the keydir retains the new
pointer — the keydir is not `identical to the keydir before the call`. -/
theorem C4_counterexample_failed_compaction_keeps_insert :
    KvStore.set (traceS1c bigV) "a" bigV = (.error .ioErr, traceS1bad bigV) ∧
    (traceS1bad bigV).keydir ≠ (traceS1c bigV).keydir := by
  constructor
  · exact trace_set_ioFail bigV escLen_bigV_ge
  · simp only [traceS1bad, traceS1c, traceS1, encLen_set_a, escLen_bigV]
    decide

/-- C4 amended: an error leaves the keydir unchanged except when it
arises in the compaction check after a successful append, in which case
the keydir holds exactly that operation's own update (`get` never
changes the keydir at all; a failing compaction aborts before
installing `new_keydir`). -/
theorem C4_amended_keydir_after_error (s : KvStore) (k v : String) :
    ((KvStore.get s k).2).keydir = s.keydir ∧
    (∀ e s', KvStore.remove s k = (.error e, s') →
      s'.keydir = s.keydir ∨ s'.keydir = kdRemove s.keydir k) ∧
    (∀ e s', KvStore.set s k v = (.error e, s') →
      s'.keydir = s.keydir ∨ ∃ p, s'.keydir = kdInsert s.keydir k p) := by
  refine ⟨?_, ?_, ?_⟩
  · simp only [KvStore.get]
    split
    · split
      · exact read_pointer_keydir s _
      · rfl
    · rfl
  · intro e s' h
    simp only [KvStore.remove] at h
    split at h
    · injection h with hA hB
      subst hB
      left
      rfl
    · split at h
      · rename_i heq
        injection h with hA hB
        subst hB
        left
        have h0 := congrArg KvStore.keydir (congrArg Prod.snd heq)
        rw [write_rm_cmd_keydir] at h0
        exact h0.symm
      · rename_i u sw heq
        have hkw : sw.keydir = s.keydir := by
          have h0 := congrArg KvStore.keydir (congrArg Prod.snd heq)
          rw [write_rm_cmd_keydir] at h0
          exact h0.symm
        right
        have h1 := maybe_compact_error_keydir _ _ _ h
        rw [h1, ← hkw]
  · intro e s' h
    simp only [KvStore.set] at h
    split at h
    · rename_i heq
      injection h with hA hB
      subst hB
      left
      have h0 := congrArg KvStore.keydir (congrArg Prod.snd heq)
      rw [write_set_cmd_keydir] at h0
      exact h0.symm
    · rename_i p sw heq
      have hkw : sw.keydir = s.keydir := by
        have h0 := congrArg KvStore.keydir (congrArg Prod.snd heq)
        rw [write_set_cmd_keydir] at h0
        exact h0.symm
      right
      have h1 := maybe_compact_error_keydir _ _ _ h
      refine ⟨p, ?_⟩
      rw [h1, ← hkw]

/-- A small one-key store whose next I/O call is scheduled to fail. -/
def c4s : KvStore :=
  { files := [("1.log", [.record (.set "a" "v")])]
    keydir := [("a", ⟨1, 0, 31⟩)]
    readers := [1]
    log_gen := 1
    writer_gen := 1
    writer_pos := 31
    stale_logs_size := 0
    ioSched := [true] }

/-- State `c4s` after its one scheduled fault has been consumed. -/
def c4sPop : KvStore := { c4s with ioSched := [] }

/-- C4 witness: the amended statement applied at `c4s`, whose `set` and
`remove` both fail with an I/O error on the append. -/
theorem C4_witness_c4s :
    KvStore.remove c4s "a" = (.error .ioErr, c4sPop) ∧
    KvStore.set c4s "a" "w" = (.error .ioErr, c4sPop) ∧
    ((KvStore.get c4s "a").2).keydir = c4s.keydir ∧
    (c4sPop.keydir = c4s.keydir ∨ c4sPop.keydir = kdRemove c4s.keydir "a") ∧
    (c4sPop.keydir = c4s.keydir ∨ ∃ p, c4sPop.keydir = kdInsert c4s.keydir "a" p) := by
  refine ⟨by decide, by decide, ?_, ?_, ?_⟩
  · exact (C4_amended_keydir_after_error c4s "a" "w").1
  · exact (C4_amended_keydir_after_error c4s "a" "w").2.1 .ioErr c4sPop (by decide)
  · exact (C4_amended_keydir_after_error c4s "a" "w").2.2 .ioErr c4sPop (by decide)

/-- A small fault-free one-key store. -/
def c5s : KvStore :=
  { files := [("1.log", [.record (.set "a" "v")])]
    keydir := [("a", ⟨1, 0, 31⟩)]
    readers := [1]
    log_gen := 1
    writer_gen := 1
    writer_pos := 31
    stale_logs_size := 0
    ioSched := [] }

/-- State `c5s` after a successful `remove("a")`. -/
def c5s' : KvStore :=
  { files := [("1.log", [.record (.set "a" "v"), .record (.remove "a")])]
    keydir := []
    readers := [1]
    log_gen := 1
    writer_gen := 1
    writer_pos := 53
    stale_logs_size := 31
    ioSched := [] }

/-- C5 counterexample: a successful `remove("a")` of a key whose prior
pointer has length 31 raises the stale counter by exactly 31, not by
`31 + encLen (Remove{"a"})`: the `Remove` record's own length is never
added. -/
theorem C5_counterexample_rm_length_not_counted :
    KvStore.remove c5s "a" = (.ok (), c5s') ∧
    c5s'.stale_logs_size = c5s.stale_logs_size + 31 ∧
    c5s.stale_logs_size + 31 ≠ c5s.stale_logs_size + 31 + encLen (.remove "a") := by
  refine ⟨by decide, by decide, by decide⟩

/-- C5 amended: a successful `remove(k)` of a key with prior pointer
`p` adds exactly `p.len` to the stale counter (not the `Remove`
record's own length); if the sum then exceeds the threshold, the
triggered compaction resets the counter to zero. -/
theorem C5_amended_remove_stale_accounting (s : KvStore) (k : String)
    (p : LogPointer) (s' : KvStore) (hp : kdGet s.keydir k = some p)
    (h : KvStore.remove s k = (.ok (), s')) :
    (s'.stale_logs_size = s.stale_logs_size + p.len ∧
      s.stale_logs_size + p.len ≤ COMPACTION_THRESHOLD) ∨
    (s'.stale_logs_size = 0 ∧
      COMPACTION_THRESHOLD < s.stale_logs_size + p.len) := by
  simp only [KvStore.remove] at h
  split at h
  · rename_i hnone
    rw [hp] at hnone
    simp at hnone
  · split at h
    · injection h with hA hB
      injection hA
    · rename_i u sw heq
      have hkw : sw.keydir = s.keydir := by
        have h0 := congrArg KvStore.keydir (congrArg Prod.snd heq)
        rw [write_rm_cmd_keydir] at h0
        exact h0.symm
      have hsw : sw.stale_logs_size = s.stale_logs_size := by
        have h0 := congrArg KvStore.stale_logs_size (congrArg Prod.snd heq)
        rw [write_rm_cmd_stale] at h0
        exact h0.symm
      rw [hkw, hp] at h
      rcases maybe_compact_ok_stale _ _ _ h with ⟨hle, rfl⟩ | ⟨hgt, hzero⟩
      · left
        constructor
        · simp [hsw]
        · simpa [hsw] using hle
      · right
        constructor
        · exact hzero
        · simpa [hsw] using hgt

/-- C5 witness: the amended statement applied at `c5s`. -/
theorem C5_witness_c5s :
    kdGet c5s.keydir "a" = some ⟨1, 0, 31⟩ ∧
    KvStore.remove c5s "a" = (.ok (), c5s') ∧
    ((c5s'.stale_logs_size = c5s.stale_logs_size + 31 ∧
        c5s.stale_logs_size + 31 ≤ COMPACTION_THRESHOLD) ∨
      (c5s'.stale_logs_size = 0 ∧
        COMPACTION_THRESHOLD < c5s.stale_logs_size + 31)) :=
  ⟨by decide, by decide,
    C5_amended_remove_stale_accounting c5s "a" ⟨1, 0, 31⟩ c5s' (by decide) (by decide)⟩

/-- A directory containing only the oddly-named file `3.log.log`. -/
def oddDir : FileSys := [("3.log.log", [])]

/-- C6 counterexample: `3.log.log` has `.log` extension but its stem
`3.log` does not parse as an unsigned integer, so the claim says it is
ignored; the code's `trim_end_matches(".log")` strips both suffixes and
enumerates it as generation 3. -/
theorem C6_counterexample_three_log_log :
    sorted_log_gens oddDir = [3] ∧ sorted_log_gens_spec oddDir = [] := by
  refine ⟨by decide, by decide⟩

/-- C6 amended: enumeration keeps regular files with extension `.log`,
strips every trailing `".log"` occurrence from the file name, keeps
those whose remainder parses as `u64`, and sorts ascending (so
`3.log.log` yields generation 3 instead of being ignored). -/
theorem C6_amended_enumeration (files : FileSys) :
    List.Sorted (· ≤ ·) (sorted_log_gens files) ∧
    ∀ g, g ∈ sorted_log_gens files ↔
      ∃ e ∈ files, extension e.1 = some "log" ∧
        parseU64 (dropLogSuffixes e.1) = some g := by
  constructor
  · exact List.sorted_insertionSort _ _
  · intro g
    unfold sorted_log_gens
    rw [(List.perm_insertionSort _ _).mem_iff, List.mem_filterMap]
    constructor
    · rintro ⟨e, he, hf⟩
      by_cases hx : extension e.1 = some "log"
      · rw [if_pos hx] at hf
        exact ⟨e, he, hx, hf⟩
      · rw [if_neg hx] at hf
        cases hf
    · rintro ⟨e, he, hx, hpr⟩
      refine ⟨e, he, ?_⟩
      rw [if_pos hx]
      exact hpr

/-- C7: `remove` of a key absent from the keydir fails with the unknown
key error and returns the state entirely unchanged — nothing is
appended and keydir, stale counter and writer position are untouched. -/
theorem C7_remove_absent_unchanged (s : KvStore) (k : String)
    (h : kdGet s.keydir k = none) :
    KvStore.remove s k = (.error .unknownKey, s) :=
  remove_absent s k h

/-- C7 witness: removing a never-set key from the freshly opened store. -/
theorem C7_witness_traceS0 :
    kdGet traceS0.keydir "z" = none ∧
    KvStore.remove traceS0 "z" = (.error .unknownKey, traceS0) :=
  ⟨by decide, C7_remove_absent_unchanged traceS0 "z" (by decide)⟩

/-- C8: for a key the engine holds no value for, a `Get` request is
answered `Get(ok(none))` while a `Remove` request is answered in the
error arm with the string `"Key not found"` (and neither dispatch
panics). -/
theorem C8_absent_key_responses (s : KvStore) (k : String)
    (h : kdGet s.keydir k = none) :
    handle_message s (.get k) = some (.get (.ok none), s) ∧
    handle_message s (.remove k) = some (.remove (.error "Key not found"), s) := by
  constructor
  · simp [handle_message, get_absent s k h]
  · simp [handle_message, remove_absent s k h, errToString]

/-- C8 witness: the two responses at the freshly opened store. -/
theorem C8_witness_traceS0 :
    kdGet traceS0.keydir "z" = none ∧
    handle_message traceS0 (.get "z") = some (.get (.ok none), traceS0) ∧
    handle_message traceS0 (.remove "z") = some (.remove (.error "Key not found"), traceS0) :=
  ⟨by decide, (C8_absent_key_responses traceS0 "z" (by decide)).1,
    (C8_absent_key_responses traceS0 "z" (by decide)).2⟩

/-- The response prefix of the wire-driven panic run: the three `Set`
acknowledgements written before the `Get` dispatch panics. -/
def panicRunResponses : List Response :=
  [.set (.ok ()), .set (.ok ()), .set (.ok ())]

/-- The four requests that drive the C1 panic over the wire: two 1 MiB
overwrites of one key (the second triggers compaction), a fresh set,
then a get of the fresh key. -/
def panicRunMsgs : List Message :=
  [Message.set "a" bigV, Message.set "a" bigV, Message.set "b" "w",
   Message.get "b"]

theorem handle_message_set_ok (s s' : KvStore) (k v : String)
    (h : KvStore.set s k v = (.ok (), s')) :
    handle_message s (Message.set k v) = some (.set (.ok ()), s') := by
  unfold handle_message
  simp only []
  rw [h]

theorem handle_message_get_panic (s s' : KvStore) (k : String)
    (h : KvStore.get s k = (.error .panicked, s')) :
    handle_message s (Message.get k) = none := by
  unfold handle_message
  simp only []
  rw [h]

theorem handle_client_cons_some (s s' : KvStore) (m : Message)
    (ms : List Message) (r : Response) (h : handle_message s m = some (r, s')) :
    handle_client s (m :: ms) =
      (r :: (handle_client s' ms).1, (handle_client s' ms).2) := by
  rcases hc : handle_client s' ms with ⟨rs, st⟩
  show (match handle_message s m with
    | none => ([], none)
    | some (r, s') =>
      match handle_client s' ms with
      | (rs, st) => (r :: rs, st) : List Response × Option KvStore) = (r :: rs, st)
  rw [h]
  simp only []
  rw [hc]

theorem handle_client_cons_none (s : KvStore) (m : Message) (ms : List Message)
    (h : handle_message s m = none) :
    handle_client s (m :: ms) = ([], none) := by
  show (match handle_message s m with
    | none => ([], none)
    | some (r, s') =>
      match handle_client s' ms with
      | (rs, st) => (r :: rs, st) : List Response × Option KvStore) = ([], none)
  rw [h]

/-- C9 counterexample: on the four-request connection `panicRunMsgs`,
the server writes only the three responses `panicRunResponses` and then
aborts — the fourth dispatch hits the missing-reader panic, which
unwinds with no `catch_unwind` in its way — so the server does not
write exactly one response per request. -/
theorem C9_counterexample_panic_truncates_responses :
    handle_client traceS0 panicRunMsgs = (panicRunResponses, none) ∧
    panicRunResponses.length ≠ panicRunMsgs.length := by
  constructor
  · rw [panicRunMsgs,
      handle_client_cons_some traceS0 (traceS1 bigV) _ _ _
        (handle_message_set_ok traceS0 (traceS1 bigV) "a" bigV (trace_set1 bigV)),
      handle_client_cons_some (traceS1 bigV) (traceS2 bigV) _ _ _
        (handle_message_set_ok (traceS1 bigV) (traceS2 bigV) "a" bigV
          (trace_set2 bigV escLen_bigV_ge)),
      handle_client_cons_some (traceS2 bigV) (traceS3 bigV) _ _ _
        (handle_message_set_ok (traceS2 bigV) (traceS3 bigV) "b" "w"
          (trace_set3 bigV)),
      handle_client_cons_none (traceS3 bigV) _ _
        (handle_message_get_panic (traceS3 bigV) (traceS3 bigV) "b"
          (trace_get3 bigV))]
    rfl
  · simp [panicRunMsgs, panicRunResponses]

/-- C9 amended: the server writes at most one response per request; when
no dispatch panics (terminal state `some`), exactly one response per
request; and in order, the i-th response written is exactly the response
of dispatching the i-th request to the engine in the state reached after
the first i requests.  A dispatch that panics aborts the connection and
process, so no response exists for it or for any later request. -/
theorem C9_one_response_per_request_until_panic (s : KvStore)
    (msgs : List Message) :
    (handle_client s msgs).1.length ≤ msgs.length ∧
    (∀ st, (handle_client s msgs).2 = some st →
      (handle_client s msgs).1.length = msgs.length) ∧
    ∀ i m, msgs[i]? = some m → i < (handle_client s msgs).1.length →
      ∃ s_i, (handle_client s (msgs.take i)).2 = some s_i ∧
        ((handle_client s msgs).1)[i]? =
          Option.map Prod.fst (handle_message s_i m) := by
  induction msgs generalizing s with
  | nil =>
    refine ⟨by simp [handle_client], by simp [handle_client], ?_⟩
    intro i m h
    simp at h
  | cons m0 rest ih =>
    cases hm : handle_message s m0 with
    | none =>
      refine ⟨by simp [handle_client, hm], ?_, ?_⟩
      · intro st hst
        simp [handle_client, hm] at hst
      · intro i m h hi
        simp [handle_client, hm] at hi
    | some rs0 =>
      obtain ⟨r, s'⟩ := rs0
      rcases hc : handle_client s' rest with ⟨rsp, st⟩
      have ihs := ih s'
      rw [hc] at ihs
      refine ⟨?_, ?_, ?_⟩
      · simp only [handle_client, hm, hc, List.length_cons]
        exact Nat.succ_le_succ ihs.1
      · intro st0 hst
        simp only [handle_client, hm, hc] at hst
        simp only [handle_client, hm, hc, List.length_cons]
        rw [ihs.2.1 st0 hst]
      · intro i m h hi
        match i with
        | 0 =>
          simp only [List.getElem?_cons_zero, Option.some.injEq] at h
          subst h
          refine ⟨s, by simp [handle_client], ?_⟩
          simp [handle_client, hm, hc]
        | Nat.succ i =>
          simp only [List.getElem?_cons_succ] at h
          have hi' : i < rsp.length := by
            simp only [handle_client, hm, hc, List.length_cons] at hi
            omega
          obtain ⟨s_i, hsi, hr⟩ := ihs.2.2 i m h hi'
          refine ⟨s_i, ?_, ?_⟩
          · rcases hct : handle_client s' (rest.take i) with ⟨a, b⟩
            rw [hct] at hsi
            simp only [List.take_succ_cons, handle_client, hm, hct]
            exact hsi
          · simp only [handle_client, hm, hc, List.getElem?_cons_succ]
            exact hr

/-- C9 witness: a panic-free one-request connection at the freshly
opened store, with every hypothesis of the amended statement
discharged. -/
theorem C9_witness_single_get :
    (handle_client traceS0 [Message.get "q"]).1.length ≤
      [Message.get "q"].length ∧
    (handle_client traceS0 [Message.get "q"]).2 = some traceS0 ∧
    (handle_client traceS0 [Message.get "q"]).1.length =
      [Message.get "q"].length ∧
    ∃ s_i, (handle_client traceS0 ([Message.get "q"].take 0)).2 = some s_i ∧
      ((handle_client traceS0 [Message.get "q"]).1)[0]? =
        Option.map Prod.fst (handle_message s_i (Message.get "q")) :=
  ⟨(C9_one_response_per_request_until_panic traceS0 [Message.get "q"]).1,
   by decide,
   (C9_one_response_per_request_until_panic traceS0 [Message.get "q"]).2.1
     traceS0 (by decide),
   (C9_one_response_per_request_until_panic traceS0 [Message.get "q"]).2.2
     0 (Message.get "q") (by decide) (by decide)⟩

/-- C10: `get(k)` answers `Ok(None)` exactly when `k` is absent from
the keydir; for a present key the random read either yields the value
of a decoded `Set` record or fails (decode/IO error, unexpected record
kind, or the missing-reader panic), never `Ok(None)`. -/
theorem C10_get_none_iff_absent (s : KvStore) (k : String) :
    (KvStore.get s k).1 = .ok none ↔ kdGet s.keydir k = none := by
  constructor
  · intro h
    rcases ho : kdGet s.keydir k with - | p
    · rfl
    · simp only [KvStore.get, ho] at h
      split at h
      · exact absurd h (read_pointer_ne_ok_none s p)
      · simp at h
  · intro h
    simp [KvStore.get, h]
